import Mathlib

/-!
Shallow embedding of the CFDI invoice-extraction core
(`src/utils/mod_xml.py` and `src/utils/mod_rutas.py`) and proofs about it.

XML documents are modelled as element trees carrying a qualified tag
(`ElementTree` renders a namespaced tag as the namespace URI between braces,
followed by the local name), an attribute list and a child list.  Python
`None`-able values are `Option`s, floats are modelled as exact rationals
(the claims under study only concern null-propagation and decimal rendering,
never binary rounding), and `datetime` values are a plain record of calendar
fields.  Filesystem interaction is modelled by an explicit `FileSystem`
value mapping paths to parse outcomes.
-/

namespace Gestor

/-- SAT namespace URI for CFDI version 4 (`CFDI_NAMESPACES['cfdi']`). -/
def cfdiNs4 : String := "http://www.sat.gob.mx/cfd/4"

/-- SAT namespace URI for CFDI version 3 (`CFDI_NAMESPACES['cfdi3']`). -/
def cfdiNs3 : String := "http://www.sat.gob.mx/cfd/3"

/-- SAT namespace URI for the fiscal stamp (`CFDI_NAMESPACES['tfd']`). -/
def tfdNs : String := "http://www.sat.gob.mx/TimbreFiscalDigital"

mutual

/-- A parsed XML element: qualified tag, attributes in document order,
children in document order.  (The child list is a dedicated inductive,
mutually defined with `Element`, so that traversals are structurally
recursive.) -/
inductive Element where
  | mk (tag : String) (attrs : List (String × String)) (children : ElementList)
deriving DecidableEq

/-- A list of sibling elements in document order. -/
inductive ElementList where
  | nil
  | cons (head : Element) (tail : ElementList)
deriving DecidableEq

end

/-- Child list built from an ordinary list. -/
def elems : List Element → ElementList
  | [] => .nil
  | e :: es => .cons e (elems es)

/-- Child list viewed as an ordinary list. -/
def ElementList.toList : ElementList → List Element
  | .nil => []
  | .cons e es => e :: toList es

/-- Qualified tag of an element. -/
def Element.tag : Element → String
  | .mk t _ _ => t

/-- Attribute list of an element. -/
def Element.attrs : Element → List (String × String)
  | .mk _ a _ => a

/-- Child list of an element. -/
def Element.children : Element → ElementList
  | .mk _ _ c => c

/-- `element.get(name)`: first attribute with the given name, if any. -/
def Element.get (e : Element) (k : String) : Option String :=
  (e.attrs.find? (fun p => p.1 == k)).map (fun p => p.2)

/-- `element.get(name, default)`. -/
def Element.getD (e : Element) (k d : String) : String :=
  (e.get k).getD d

/-- ElementTree's qualified-tag spelling: the namespace URI between braces,
then the local name. -/
def qual (ns localName : String) : String :=
  "\x7b" ++ ns ++ "\x7d" ++ localName

/-- Python `a or b` on nullable strings: `a` unless it is `None` or empty,
in which case the value of `b` (possibly `None`) is returned verbatim. -/
def pyOr (a b : Option String) : Option String :=
  match a with
  | some s => if s = "" then b else some s
  | none => b

/-- Python `str(x)` on a nullable string (an f-string renders `None` as
the text `"None"`). -/
def pyStrOpt : Option String → String
  | some s => s
  | none => "None"

/-- Python `s.startswith(pre)`. -/
def strStartsWith (s pre : String) : Bool :=
  pre.data.isPrefixOf s.data

/-- Python `s.endswith(suffix)`. -/
def strEndsWith (s suffix : String) : Bool :=
  suffix.data.reverse.isPrefixOf s.data.reverse

/-- Python `s.strip()`: the characters of `s` with surrounding whitespace
removed. -/
def pyStrip (s : String) : List Char :=
  ((s.data.dropWhile Char.isWhitespace).reverse.dropWhile Char.isWhitespace).reverse

/-- `element.find(tag)`: first direct child with the given qualified tag. -/
def findChild (e : Element) (tag : String) : Option Element :=
  e.children.toList.find? (fun c => c.tag == tag)

mutual

/-- An element's subtree (itself and its descendants) in document
(preorder) order. -/
def elemFlatten : Element → List Element
  | .mk t a cs => .mk t a cs :: listFlatten cs
termination_by structural e => e

/-- A forest's elements, each with its descendants, in document order. -/
def listFlatten : ElementList → List Element
  | .nil => []
  | .cons e es => elemFlatten e ++ listFlatten es
termination_by structural l => l

end

/-- `element.find('.//tag')`: first descendant (the element itself excluded)
with the given qualified tag, in document order. -/
def findDescendant (e : Element) (tag : String) : Option Element :=
  (listFlatten e.children).find? (fun c => c.tag == tag)

/-- A parsed `datetime` value. -/
structure DateTime where
  year : Nat
  month : Nat
  day : Nat
  hour : Nat
  minute : Nat
  second : Nat
  usec : Nat
deriving DecidableEq, Repr

/-- Numeric value of a decimal digit character. -/
def digit? (c : Char) : Option Nat :=
  if c.isDigit then some (c.toNat - 48) else none

/-- `%Y`: exactly four decimal digits. -/
def parse4 : List Char → Option (Nat × List Char)
  | a :: b :: c :: d :: rest =>
    match digit? a, digit? b, digit? c, digit? d with
    | some x, some y, some z, some w => some (x * 1000 + y * 100 + z * 10 + w, rest)
    | _, _, _, _ => none
  | _ => none

/-- `%m`/`%d`/`%H`/`%M`/`%S`: one or two decimal digits (greedy), whose
value must lie in `[lo, hi]`. -/
def parse12 (lo hi : Nat) : List Char → Option (Nat × List Char)
  | [] => none
  | a :: rest =>
    match digit? a with
    | none => none
    | some x =>
      match rest with
      | [] => if lo ≤ x ∧ x ≤ hi then some (x, []) else none
      | b :: rest2 =>
        match digit? b with
        | none => if lo ≤ x ∧ x ≤ hi then some (x, rest) else none
        | some y =>
          if lo ≤ x * 10 + y ∧ x * 10 + y ≤ hi then some (x * 10 + y, rest2) else none

/-- Take at most `n` leading digits. -/
def takeDigits : Nat → List Char → (List Nat × List Char)
  | 0, cs => ([], cs)
  | _ + 1, [] => ([], [])
  | n + 1, c :: cs =>
    match digit? c with
    | some d =>
      let (ds, r) := takeDigits n cs
      (d :: ds, r)
    | none => ([], c :: cs)

/-- Value of a digit list read most-significant first. -/
def digitsVal (ds : List Nat) : Nat :=
  ds.foldl (fun a d => a * 10 + d) 0

/-- `%f`: one to six digits, scaled to microseconds. -/
def parseMicro (cs : List Char) : Option (Nat × List Char) :=
  let (ds, r) := takeDigits 6 cs
  if ds.isEmpty then none
  else some (digitsVal ds * 10 ^ (6 - ds.length), r)

/-- `%Y-%m-%d` field parsing (no trailing-input requirement). -/
def parseDatePart (cs : List Char) : Option (Nat × Nat × Nat × List Char) :=
  match parse4 cs with
  | none => none
  | some (y, r1) =>
    match r1 with
    | '-' :: r2 =>
      match parse12 1 12 r2 with
      | none => none
      | some (m, r3) =>
        match r3 with
        | '-' :: r4 =>
          match parse12 1 31 r4 with
          | none => none
          | some (d, r5) => some (y, m, d, r5)
        | _ => none
    | _ => none

/-- `%H:%M:%S` field parsing. -/
def parseTimePart (cs : List Char) : Option (Nat × Nat × Nat × List Char) :=
  match parse12 0 23 cs with
  | none => none
  | some (h, r1) =>
    match r1 with
    | ':' :: r2 =>
      match parse12 0 59 r2 with
      | none => none
      | some (mi, r3) =>
        match r3 with
        | ':' :: r4 =>
          match parse12 0 59 r4 with
          | none => none
          | some (s, r5) => some (h, mi, s, r5)
        | _ => none
    | _ => none

/-- Gregorian leap-year test. -/
def isLeap (y : Nat) : Bool :=
  y % 4 == 0 && (y % 100 != 0 || y % 400 == 0)

/-- Days in a month (month assumed in 1..12). -/
def daysInMonth (y m : Nat) : Nat :=
  if m == 2 then (if isLeap y then 29 else 28)
  else if m == 4 || m == 6 || m == 9 || m == 11 then 30
  else 31

/-- The `datetime` constructor's validity check on the calendar fields
(strptime already bounds month, hour, minute and second). -/
def validDate (y m d : Nat) : Bool :=
  1 ≤ y && 1 ≤ d && d ≤ daysInMonth y m

/-- Remainder of a date-plus-time format after the date fields:
a separator character, then `%H:%M:%S`, then an optional `.%f`,
then end of input. -/
def afterDate (sep : Char) (withFrac : Bool) (y m d : Nat) : List Char → Option DateTime
  | [] => none
  | c :: r2 =>
    if c = sep then
      match parseTimePart r2 with
      | none => none
      | some (h, mi, s, r3) =>
        if withFrac then
          match r3 with
          | '.' :: r4 =>
            match parseMicro r4 with
            | none => none
            | some (us, r5) =>
              if r5 = [] ∧ validDate y m d then some ⟨y, m, d, h, mi, s, us⟩ else none
          | _ => none
        else
          if r3 = [] ∧ validDate y m d then some ⟨y, m, d, h, mi, s, 0⟩ else none
    else none

/-- `datetime.strptime` for the three date-plus-time formats used by the
parser, parameterised by the separator (`'T'` or `' '`) and by whether the
format carries a fractional-seconds field. -/
def strptimeF (sep : Char) (withFrac : Bool) (cs : List Char) : Option DateTime :=
  match parseDatePart cs with
  | none => none
  | some (y, m, d, r) => afterDate sep withFrac y m d r

/-- `datetime.strptime` for the `'%Y-%m-%d'` format. -/
def strptimeDateOnly (cs : List Char) : Option DateTime :=
  match parseDatePart cs with
  | none => none
  | some (y, m, d, r) =>
    if r = [] ∧ validDate y m d then some ⟨y, m, d, 0, 0, 0, 0⟩ else none

/-- `CFDIParser._convertir_fecha`: `None` or empty input gives `None`;
otherwise the four formats are attempted in the source's order
(`'%Y-%m-%dT%H:%M:%S'`, `'%Y-%m-%d %H:%M:%S'`, `'%Y-%m-%dT%H:%M:%S.%f'`,
`'%Y-%m-%d'`), returning the first success, else `None`. -/
def convertirFecha (fechaStr : Option String) : Option DateTime :=
  match fechaStr with
  | none => none
  | some s =>
    if s = "" then none
    else
      match strptimeF 'T' false s.data with
      | some d => some d
      | none =>
        match strptimeF ' ' false s.data with
        | some d => some d
        | none =>
          match strptimeF 'T' true s.data with
          | some d => some d
          | none => strptimeDateOnly s.data

/-- Diagnostics printed by `_convertir_fecha`: one message exactly when a
non-empty date string matches none of the four formats. -/
def convertirFechaLog (fechaStr : Option String) : List String :=
  match fechaStr with
  | none => []
  | some s =>
    if s = "" then []
    else if (convertirFecha (some s)).isSome then []
    else ["No se pudo convertir la fecha: " ++ s]

/-- Leading sign of a float literal. Returns whether the value is negated
and the remaining input. -/
def parseSign : List Char → (Bool × List Char)
  | '-' :: cs => (true, cs)
  | '+' :: cs => (false, cs)
  | cs => (false, cs)

/-- Take every leading digit. -/
def takeAllDigits : List Char → (List Nat × List Char)
  | [] => ([], [])
  | c :: cs =>
    match digit? c with
    | some d =>
      let (ds, r) := takeAllDigits cs
      (d :: ds, r)
    | none => ([], c :: cs)

/-- Mantissa of a float literal: digits with an optional fractional part,
or a bare fractional part; at least one digit overall. -/
def parseMantissa (cs : List Char) : Option (ℚ × List Char) :=
  let (ip, r1) := takeAllDigits cs
  match r1 with
  | '.' :: r2 =>
    let (fp, r3) := takeAllDigits r2
    if ip.isEmpty && fp.isEmpty then none
    else some ((digitsVal ip : ℚ) + (digitsVal fp : ℚ) / ((10 : ℚ) ^ fp.length), r3)
  | _ => if ip.isEmpty then none else some ((digitsVal ip : ℚ), r1)

/-- Optional exponent part `e`/`E`, sign, digits. When the input does not
start with an exponent marker it is left untouched with exponent `0`. -/
def parseExpPart (cs : List Char) : Option (Int × List Char) :=
  match cs with
  | [] => some (0, [])
  | c :: r1 =>
    if c = 'e' ∨ c = 'E' then
      let (neg, r2) := parseSign r1
      let (ds, r3) := takeAllDigits r2
      if ds.isEmpty then none
      else some ((if neg then -(digitsVal ds : Int) else (digitsVal ds : Int)), r3)
    else some (0, c :: r1)

/-- Python `float(s)` on decimal literals, modelled over exact rationals:
surrounding whitespace is ignored, then sign, mantissa and optional decimal
exponent; anything else fails.  (The special texts `inf`/`nan` and digit
underscores are outside this model; the records under study never carry
them.) -/
def pyFloat (s : String) : Option ℚ :=
  let cs := pyStrip s
  let (neg, r1) := parseSign cs
  match parseMantissa r1 with
  | none => none
  | some (m, r2) =>
    match parseExpPart r2 with
    | none => none
    | some (e, r3) =>
      if r3 = [] then some ((if neg then -m else m) * (10 : ℚ) ^ e) else none

/-- `CFDIParser._convertir_a_float`: `None` or empty gives `None`; otherwise
`float(...)` with any parse failure mapped to `None`. -/
def convertirAFloat (valor : Option String) : Option ℚ :=
  match valor with
  | none => none
  | some s => if s = "" then none else pyFloat s

/-- The `CFDIData` dataclass: every field optional, defaulted to `None`. -/
@[ext]
structure CFDIData where
  folio : Option String := none
  serie : Option String := none
  fecha_emision : Option DateTime := none
  total : Option ℚ := none
  subtotal : Option ℚ := none
  moneda : Option String := none
  emisor_rfc : Option String := none
  emisor_nombre : Option String := none
  emisor_regimen : Option String := none
  receptor_rfc : Option String := none
  receptor_nombre : Option String := none
  uuid : Option String := none
  fecha_timbrado : Option DateTime := none
  version : Option String := none
  archivo_origen : Option String := none
deriving DecidableEq, Repr

/-- `Path(p).name`: the final path component. -/
def pathName (p : String) : String :=
  ⟨(p.data.reverse.takeWhile (fun c => c ≠ '/')).reverse⟩

/-- Attribute of a named direct child, when the child exists. -/
def attrOfChild (root : Element) (tag attr : String) : Option String :=
  match findChild root tag with
  | some e => e.get attr
  | none => none

/-- Attribute of a named direct child under the v3.3 casing fallback
(`child.get(lc) or child.get(pc)`), when the child exists. -/
def attrOfChildOr (root : Element) (tag lc pc : String) : Option String :=
  match findChild root tag with
  | some e => pyOr (e.get lc) (e.get pc)
  | none => none

/-- `CFDIParser._extraer_timbre_fiscal`: the `UUID` and `FechaTimbrado`
fields of the first `TimbreFiscalDigital` descendant, when present. -/
def extraerTimbre (root : Element) : Option String × Option DateTime :=
  match findDescendant root (qual tfdNs "TimbreFiscalDigital") with
  | some t => (t.get "UUID", convertirFecha (t.get "FechaTimbrado"))
  | none => (none, none)

/-- `CFDIParser._parsear_cfdi_v4`. -/
def parsearCFDIv4 (root : Element) (archivo : String) : CFDIData :=
  let timbre := extraerTimbre root
  { version := some "4.0"
    archivo_origen := some (pathName archivo)
    folio := root.get "Folio"
    serie := root.get "Serie"
    total := convertirAFloat (root.get "Total")
    subtotal := convertirAFloat (root.get "SubTotal")
    moneda := some (root.getD "Moneda" "MXN")
    fecha_emision := convertirFecha (root.get "Fecha")
    emisor_rfc := attrOfChild root (qual cfdiNs4 "Emisor") "Rfc"
    emisor_nombre := attrOfChild root (qual cfdiNs4 "Emisor") "Nombre"
    emisor_regimen := attrOfChild root (qual cfdiNs4 "Emisor") "RegimenFiscal"
    receptor_rfc := attrOfChild root (qual cfdiNs4 "Receptor") "Rfc"
    receptor_nombre := attrOfChild root (qual cfdiNs4 "Receptor") "Nombre"
    uuid := timbre.1
    fecha_timbrado := timbre.2 }

/-- `CFDIParser._parsear_cfdi_v3`. -/
def parsearCFDIv3 (root : Element) (archivo : String) : CFDIData :=
  let timbre := extraerTimbre root
  { version := some "3.3"
    archivo_origen := some (pathName archivo)
    folio := pyOr (root.get "folio") (root.get "Folio")
    serie := pyOr (root.get "serie") (root.get "Serie")
    total := convertirAFloat (pyOr (root.get "total") (root.get "Total"))
    subtotal := convertirAFloat (pyOr (root.get "subTotal") (root.get "SubTotal"))
    moneda := some (root.getD "Moneda" "MXN")
    fecha_emision := convertirFecha (pyOr (root.get "fecha") (root.get "Fecha"))
    emisor_rfc := attrOfChildOr root (qual cfdiNs3 "Emisor") "rfc" "Rfc"
    emisor_nombre := attrOfChildOr root (qual cfdiNs3 "Emisor") "nombre" "Nombre"
    receptor_rfc := attrOfChildOr root (qual cfdiNs3 "Receptor") "rfc" "Rfc"
    receptor_nombre := attrOfChildOr root (qual cfdiNs3 "Receptor") "nombre" "Nombre"
    uuid := timbre.1
    fecha_timbrado := timbre.2 }

/-- `CFDIParser._detectar_version`: namespace of the qualified root tag
first (v4 then v3), then the literal `Version` attribute, defaulting to
`"3.3"`. -/
def detectarVersion (root : Element) : String :=
  if strStartsWith root.tag (qual cfdiNs4 "") then "4.0"
  else if strStartsWith root.tag (qual cfdiNs3 "") then "3.3"
  else root.getD "Version" "3.3"

/-- The observable filesystem state for the extractor: `files` maps a path
to `none` when the file is missing, to `some (.error msg)` when the file
exists but `ET.parse` fails with that message, and to `some (.ok root)`
when it parses; `pendientes` is the listing of the pending directory
(`none` when that directory does not exist). -/
structure FileSystem where
  files : String → Option (Except String Element)
  pendientes : Option (List String)

/-- The body of `CFDIParser.parsear_archivo` before its broad handler:
each internal failure (missing file, malformed XML, unsupported version)
is an explicit raised error. -/
def parsearArchivoE (fs : FileSystem) (ruta : String) : Except String CFDIData :=
  match fs.files ruta with
  | none => .error ("Archivo no encontrado: " ++ ruta)
  | some (.error e) => .error e
  | some (.ok root) =>
    let version := detectarVersion root
    if version = "4.0" then .ok (parsearCFDIv4 root ruta)
    else if version = "3.3" then .ok (parsearCFDIv3 root ruta)
    else .error ("Versión de CFDI no soportada: " ++ version)

/-- `CFDIParser.parsear_archivo` (and `parsear_cfdi`): every internal error
is absorbed, printing one diagnostic and returning `None`.  The second
component is the list of printed messages. -/
def parsearArchivo (fs : FileSystem) (ruta : String) : Option CFDIData × List String :=
  match parsearArchivoE fs ruta with
  | .ok d => (some d, [])
  | .error e => (none, ["Error al parsear CFDI " ++ ruta ++ ": " ++ e])

/-- Path of the pending directory given the base directory path
(`DIR_PENDIENTES = DIR_BASE / "data" / "facturas_pendientes"`). -/
def dirPendientesPath (base : String) : String :=
  base ++ "/data/facturas_pendientes"

/-- The accumulation loop of `procesar_cfdis_pendientes`: append the result
of each extraction that returned a record. -/
def procesarLoop (fs : FileSystem) : List String → List CFDIData → List CFDIData
  | [], acc => acc
  | a :: rest, acc =>
    match (parsearArchivo fs a).1 with
    | some d => procesarLoop fs rest (acc ++ [d])
    | none => procesarLoop fs rest acc

/-- `procesar_cfdis_pendientes`: when the pending directory exists, run the
extractor over its `*.xml` entries in listing order and keep the non-null
results; otherwise the empty list. -/
def procesarCfdisPendientes (base : String) (fs : FileSystem) : List CFDIData :=
  match fs.pendientes with
  | none => []
  | some listing =>
    procesarLoop fs
      ((listing.filter (fun n => strEndsWith n ".xml")).map
        (fun n => dirPendientesPath base ++ "/" ++ n)) []

/-- Directory components of `DIR_PENDIENTES` relative to the abstract
install base. -/
def dirPendientesComponents (base : List String) : List String :=
  base ++ ["data", "facturas_pendientes"]

/-- Directory components of `DIR_PROCESADAS`. -/
def dirProcesadasComponents (base : List String) : List String :=
  base ++ ["data", "facturas_procesadas"]

/-- All nonempty prefixes of a component path: the directory itself and
every parent directory below the root. -/
def ancestors : List String → Finset (List String)
  | [] => ∅
  | a :: rest => insert [a] ((ancestors rest).image (fun l => a :: l))

/-- `Path.mkdir(parents=True, exist_ok=True)` on a directory-set state:
the directory and all its missing parents are added; nothing is removed and
an already-present directory is left alone. -/
def mkdirParentsExistOk (s : Finset (List String)) (p : List String) : Finset (List String) :=
  s ∪ ancestors p

/-- `init_directorios`: `mkdir` on `DIR_PROCESADAS` then `DIR_PENDIENTES`,
in the source's order. -/
def initDirectorios (base : List String) (s : Finset (List String)) : Finset (List String) :=
  mkdirParentsExistOk (mkdirParentsExistOk s (dirProcesadasComponents base))
    (dirPendientesComponents base)

/-- A primitive filesystem operation, as issued by the three public
operations.  Only `mkdirOp` mutates the filesystem. -/
inductive FsOp where
  | stat (p : String)
  | readFile (p : String)
  | listDir (p : String)
  | mkdirOp (p : List String)
deriving DecidableEq, Repr

/-- Whether an operation writes to the filesystem. -/
def FsOp.isWrite : FsOp → Bool
  | .mkdirOp _ => true
  | _ => false

/-- The filesystem operations `parsear_archivo` issues on a given state:
an existence check, then (when the file exists) the read performed by
`ET.parse`. -/
def parsearArchivoOps (fs : FileSystem) (ruta : String) : List FsOp :=
  match fs.files ruta with
  | none => [.stat ruta]
  | some _ => [.stat ruta, .readFile ruta]

/-- The filesystem operations `procesar_cfdis_pendientes` issues: an
existence check on the pending directory, then (when it exists) its glob
listing followed by each per-file extraction's operations. -/
def procesarCfdisPendientesOps (base : String) (fs : FileSystem) : List FsOp :=
  match fs.pendientes with
  | none => [.stat (dirPendientesPath base)]
  | some listing =>
    .stat (dirPendientesPath base) :: .listDir (dirPendientesPath base) ::
      ((listing.filter (fun n => strEndsWith n ".xml")).map
        (fun n => dirPendientesPath base ++ "/" ++ n)).flatMap (parsearArchivoOps fs)

/-- The filesystem operations `init_directorios` issues. -/
def initDirectoriosOps (base : List String) : List FsOp :=
  [.mkdirOp (dirProcesadasComponents base), .mkdirOp (dirPendientesComponents base)]

/-- Decimal digit characters of `n`, most significant first, prepended to
`acc`. -/
def natDigitsAux (n : Nat) (acc : List Char) : List Char :=
  let d := Char.ofNat (48 + n % 10)
  if h : n / 10 = 0 then d :: acc
  else natDigitsAux (n / 10) (d :: acc)
termination_by n
decreasing_by
  exact Nat.div_lt_self (by omega) (by omega)

/-- Decimal digit characters of `n`. -/
def natStr (n : Nat) : List Char :=
  natDigitsAux n []

/-- Insert a comma after every third character of a reversed digit list
(thousands grouping seen from the right). -/
def commaRev : List Char → List Char
  | [] => []
  | [a] => [a]
  | [a, b] => [a, b]
  | [a, b, c] => [a, b, c]
  | a :: b :: c :: d :: rest => a :: b :: c :: ',' :: commaRev (d :: rest)

/-- Decimal rendering of `n` with thousands separators. -/
def groupThousands (n : Nat) : String :=
  ⟨(commaRev (natStr n).reverse).reverse⟩

/-- Two-digit zero-padded decimal rendering (for values below 100). -/
def pad2 (n : Nat) : String :=
  if n < 10 then ⟨'0' :: natStr n⟩ else ⟨natStr n⟩

/-- Four-digit zero-padded decimal rendering. -/
def pad4 (n : Nat) : String :=
  if n < 10 then ⟨'0' :: '0' :: '0' :: natStr n⟩
  else if n < 100 then ⟨'0' :: '0' :: natStr n⟩
  else if n < 1000 then ⟨'0' :: natStr n⟩
  else ⟨natStr n⟩

/-- Round-half-even to an integer, the rounding used when formatting a
number with a fixed number of decimals. -/
def roundHalfEven (q : ℚ) : Int :=
  let f := q.floor
  let r := q - f
  if r < 1 / 2 then f
  else if 1 / 2 < r then f + 1
  else if f % 2 = 0 then f else f + 1

/-- Python `f"{x:,.2f}"`: sign, integer part grouped in thousands, a dot
and two decimal digits. -/
def formatComma2 (q : ℚ) : String :=
  let n := roundHalfEven (q * 100)
  let a := n.natAbs
  (if n < 0 then "-" else "") ++ groupThousands (a / 100) ++ "." ++ pad2 (a % 100)

/-- `datetime.strftime('%d/%m/%Y')`. -/
def strftimeDMY (d : DateTime) : String :=
  pad2 d.day ++ "/" ++ pad2 d.month ++ "/" ++ pad4 d.year

/-- The display mapping produced by `obtener_resumen_cfdi`. -/
structure ResumenCFDI where
  folio_completo : Option String
  fecha_emision : Option String
  emisor : Option String
  receptor : Option String
  total : Option String
  uuid : Option String
  archivo : Option String
deriving DecidableEq, Repr

/-- `obtener_resumen_cfdi`.  Each conditional mirrors the source's Python
truthiness test: an empty string and `None` are falsy, and `0.0` is a falsy
float. -/
def obtenerResumenCfdi (r : CFDIData) : ResumenCFDI :=
  { folio_completo :=
      match r.serie with
      | some s => if s = "" then r.folio else some (s ++ "-" ++ pyStrOpt r.folio)
      | none => r.folio
    fecha_emision :=
      match r.fecha_emision with
      | some d => some (strftimeDMY d)
      | none => none
    emisor := pyOr r.emisor_nombre r.emisor_rfc
    receptor := pyOr r.receptor_nombre r.receptor_rfc
    total :=
      match r.total with
      | some q =>
        if q = 0 then none
        else some ("$" ++ formatComma2 q ++ " " ++ pyStrOpt r.moneda)
      | none => none
    uuid := r.uuid
    archivo := r.archivo_origen }

/-- The display shape claimed for a formatted amount: an optional minus
sign, a nonempty run of digits and commas, a dot, and exactly two decimal
digits. -/
def currencyShape (s : String) : Prop :=
  ∃ (sgn intD frac : List Char),
    s.data = sgn ++ intD ++ ['.'] ++ frac ∧
    (sgn = [] ∨ sgn = ['-']) ∧
    intD ≠ [] ∧
    (∀ c ∈ intD, c.isDigit = true ∨ c = ',') ∧
    frac.length = 2 ∧
    (∀ c ∈ frac, c.isDigit = true)

/-! ## Version detection and whole-record failure handling (C4, C5, C6) -/

instance : DecidableEq (Except String Element) := fun a b =>
  match a, b with
  | .ok x, .ok y => if h : x = y then isTrue (by rw [h]) else isFalse (by simp [h])
  | .ok _, .error _ => isFalse (fun h => by cases h)
  | .error _, .ok _ => isFalse (fun h => by cases h)
  | .error x, .error y => if h : x = y then isTrue (by rw [h]) else isFalse (by simp [h])

/-- Unfolding `parsear_archivo` on a missing file. -/
theorem parsearArchivo_missing (fs : FileSystem) (ruta : String)
    (hf : fs.files ruta = none) :
    parsearArchivo fs ruta =
      (none, ["Error al parsear CFDI " ++ ruta ++ ": " ++
        ("Archivo no encontrado: " ++ ruta)]) := by
  unfold parsearArchivo parsearArchivoE
  rw [hf]

/-- Unfolding `parsear_archivo` on a file that fails XML parsing. -/
theorem parsearArchivo_malformed (fs : FileSystem) (ruta e : String)
    (hf : fs.files ruta = some (.error e)) :
    parsearArchivo fs ruta =
      (none, ["Error al parsear CFDI " ++ ruta ++ ": " ++ e]) := by
  unfold parsearArchivo parsearArchivoE
  rw [hf]

/-- Unfolding `parsear_archivo` on a file that parses to a root element:
dispatch on the detected version. -/
theorem parsearArchivo_ok (fs : FileSystem) (ruta : String) (root : Element)
    (hf : fs.files ruta = some (.ok root)) :
    parsearArchivo fs ruta =
      if detectarVersion root = "4.0" then (some (parsearCFDIv4 root ruta), [])
      else if detectarVersion root = "3.3" then (some (parsearCFDIv3 root ruta), [])
      else (none, ["Error al parsear CFDI " ++ ruta ++ ": " ++
        ("Versión de CFDI no soportada: " ++ detectarVersion root)]) := by
  unfold parsearArchivo parsearArchivoE
  rw [hf]
  by_cases h4 : detectarVersion root = "4.0"
  · simp [h4]
  · by_cases h3 : detectarVersion root = "3.3" <;> simp [h4, h3]

/-- C4: version detection inspects the root element's qualified tag — the
v4 namespace gives `"4.0"`, else the v3 namespace gives `"3.3"`, else the
literal `Version` attribute is used, defaulting to `"3.3"` when absent;
hence a document with no recognised namespace and no `Version` attribute is
parsed as a valid version-3.3 record rather than failing. -/
theorem c4_deteccion_version (root : Element) (fs : FileSystem) (ruta : String) :
    (strStartsWith root.tag (qual cfdiNs4 "") = true → detectarVersion root = "4.0") ∧
    (strStartsWith root.tag (qual cfdiNs4 "") = false →
      strStartsWith root.tag (qual cfdiNs3 "") = true → detectarVersion root = "3.3") ∧
    (strStartsWith root.tag (qual cfdiNs4 "") = false →
      strStartsWith root.tag (qual cfdiNs3 "") = false →
      ∀ v, root.get "Version" = some v → detectarVersion root = v) ∧
    (strStartsWith root.tag (qual cfdiNs4 "") = false →
      strStartsWith root.tag (qual cfdiNs3 "") = false →
      root.get "Version" = none → detectarVersion root = "3.3") ∧
    (strStartsWith root.tag (qual cfdiNs4 "") = false →
      strStartsWith root.tag (qual cfdiNs3 "") = false →
      root.get "Version" = none → fs.files ruta = some (.ok root) →
      parsearArchivo fs ruta = (some (parsearCFDIv3 root ruta), []) ∧
        (parsearCFDIv3 root ruta).version = some "3.3") := by
  refine ⟨fun h4 => ?_, fun h4 h3 => ?_, fun h4 h3 v hv => ?_, fun h4 h3 hv => ?_,
    fun h4 h3 hv hfs => ⟨?_, rfl⟩⟩
  · simp [detectarVersion, h4]
  · simp [detectarVersion, h4, h3]
  · simp [detectarVersion, h4, h3, Element.getD, hv]
  · simp [detectarVersion, h4, h3, Element.getD, hv]
  · have hdet : detectarVersion root = "3.3" := by
      simp [detectarVersion, h4, h3, Element.getD, hv]
    rw [parsearArchivo_ok fs ruta root hfs, hdet]
    simp

/-- C5: a record returned by a successful parse always carries version
exactly `"4.0"` or `"3.3"`; when any other version is detected the whole
operation returns null, emitting no partial record. -/
theorem c5_version_exacta (fs : FileSystem) (ruta : String) :
    (∀ d msgs, parsearArchivo fs ruta = (some d, msgs) →
      d.version = some "4.0" ∨ d.version = some "3.3") ∧
    (∀ root, fs.files ruta = some (.ok root) → detectarVersion root ≠ "4.0" →
      detectarVersion root ≠ "3.3" → (parsearArchivo fs ruta).1 = none) := by
  constructor
  · intro d msgs h
    cases hf : fs.files ruta with
    | none => rw [parsearArchivo_missing fs ruta hf] at h; simp at h
    | some r =>
      cases r with
      | error e => rw [parsearArchivo_malformed fs ruta e hf] at h; simp at h
      | ok root =>
        rw [parsearArchivo_ok fs ruta root hf] at h
        by_cases h4 : detectarVersion root = "4.0"
        · rw [if_pos h4] at h
          have hd : parsearCFDIv4 root ruta = d := by
            simpa using congrArg Prod.fst h
          subst hd
          left
          rfl
        · by_cases h3 : detectarVersion root = "3.3"
          · rw [if_neg h4, if_pos h3] at h
            have hd : parsearCFDIv3 root ruta = d := by
              simpa using congrArg Prod.fst h
            subst hd
            right
            rfl
          · rw [if_neg h4, if_neg h3] at h
            simp at h
  · intro root hf h4 h3
    rw [parsearArchivo_ok fs ruta root hf, if_neg h4, if_neg h3]

/-- C6: the single-file entry point never propagates an error — a missing
file, a malformed XML file, and an unsupported detected version each
produce exactly one diagnostic message and a null result. -/
theorem c6_absorcion_errores (fs : FileSystem) (ruta : String) :
    (fs.files ruta = none → parsearArchivo fs ruta =
      (none, ["Error al parsear CFDI " ++ ruta ++ ": " ++
        ("Archivo no encontrado: " ++ ruta)])) ∧
    (∀ e, fs.files ruta = some (.error e) → parsearArchivo fs ruta =
      (none, ["Error al parsear CFDI " ++ ruta ++ ": " ++ e])) ∧
    (∀ root, fs.files ruta = some (.ok root) → detectarVersion root ≠ "4.0" →
      detectarVersion root ≠ "3.3" → parsearArchivo fs ruta =
      (none, ["Error al parsear CFDI " ++ ruta ++ ": " ++
        ("Versión de CFDI no soportada: " ++ detectarVersion root)])) := by
  refine ⟨fun h => ?_, fun e h => ?_, fun root h h4 h3 => ?_⟩
  · exact parsearArchivo_missing fs ruta h
  · exact parsearArchivo_malformed fs ruta e h
  · rw [parsearArchivo_ok fs ruta root h, if_neg h4, if_neg h3]

/-- A v4-namespaced root with no attributes or children. -/
def rootV4ex : Element := Element.mk (qual cfdiNs4 "Comprobante") [] .nil

/-- A root with no namespace, no `Version` attribute, no children. -/
def rootPlainEx : Element := Element.mk "Comprobante" [] .nil

/-- A root with no namespace and an unsupported `Version` attribute. -/
def rootBadVer : Element := Element.mk "Comprobante" [("Version", "2.0")] .nil

/-- A filesystem holding one parseable file, one malformed file and one
file with an unsupported version. -/
def fsEx : FileSystem :=
  ⟨fun p =>
    if p = "ok.xml" then some (.ok rootPlainEx)
    else if p = "bad.xml" then some (.error "sintaxis invalida")
    else if p = "ver.xml" then some (.ok rootBadVer)
    else none, none⟩

/-- Witness for `c4_deteccion_version` at concrete inputs. -/
theorem c4_deteccion_version_witness :
    detectarVersion rootV4ex = "4.0" ∧
    parsearArchivo fsEx "ok.xml" = (some (parsearCFDIv3 rootPlainEx "ok.xml"), []) ∧
    (parsearCFDIv3 rootPlainEx "ok.xml").version = some "3.3" := by
  have h1 := (c4_deteccion_version rootV4ex fsEx "ok.xml").1 (by decide)
  have h2 := (c4_deteccion_version rootPlainEx fsEx "ok.xml").2.2.2.2
    (by decide) (by decide) (by decide) (by decide)
  exact ⟨h1, h2.1, h2.2⟩

/-- Witness for `c5_version_exacta` at concrete inputs. -/
theorem c5_version_exacta_witness :
    ((parsearCFDIv3 rootPlainEx "ok.xml").version = some "4.0" ∨
      (parsearCFDIv3 rootPlainEx "ok.xml").version = some "3.3") ∧
    (parsearArchivo fsEx "ver.xml").1 = none := by
  constructor
  · exact (c5_version_exacta fsEx "ok.xml").1 (parsearCFDIv3 rootPlainEx "ok.xml") []
      (by decide)
  · exact (c5_version_exacta fsEx "ver.xml").2 rootBadVer (by decide) (by decide) (by decide)

/-- Witness for `c6_absorcion_errores` at concrete inputs. -/
theorem c6_absorcion_errores_witness :
    parsearArchivo fsEx "nope.xml" =
      (none, ["Error al parsear CFDI nope.xml: Archivo no encontrado: nope.xml"]) ∧
    parsearArchivo fsEx "bad.xml" =
      (none, ["Error al parsear CFDI bad.xml: sintaxis invalida"]) ∧
    parsearArchivo fsEx "ver.xml" =
      (none, ["Error al parsear CFDI ver.xml: Versión de CFDI no soportada: " ++
        detectarVersion rootBadVer]) := by
  refine ⟨?_, ?_, ?_⟩
  · exact (c6_absorcion_errores fsEx "nope.xml").1 (by decide)
  · exact (c6_absorcion_errores fsEx "bad.xml").2.1 "sintaxis invalida" (by decide)
  · exact (c6_absorcion_errores fsEx "ver.xml").2.2 rootBadVer (by decide) (by decide)
      (by decide)

/-! ## Batch driver (C8) -/

/-- The accumulation loop collects, after the accumulator, exactly the
non-null extraction results in input order. -/
theorem procesarLoop_eq (fs : FileSystem) (l : List String) (acc : List CFDIData) :
    procesarLoop fs l acc = acc ++ l.filterMap (fun p => (parsearArchivo fs p).1) := by
  induction l generalizing acc with
  | nil => simp [procesarLoop]
  | cons a rest ih =>
    unfold procesarLoop
    cases h : (parsearArchivo fs a).1 with
    | some d =>
      show procesarLoop fs rest (acc ++ [d]) = _
      rw [ih]
      simp [h]
    | none =>
      show procesarLoop fs rest acc = _
      rw [ih]
      simp [h]

/-- C8: on a nonexistent pending directory the batch driver returns the
empty sequence without error; otherwise it runs the extractor on every
`*.xml` entry of the listing and collects exactly the non-null results,
in listing order. -/
theorem c8_procesar_pendientes (base : String) (fs : FileSystem) :
    (fs.pendientes = none → procesarCfdisPendientes base fs = []) ∧
    (∀ L, fs.pendientes = some L →
      procesarCfdisPendientes base fs =
        ((L.filter (fun n => strEndsWith n ".xml")).map
          (fun n => dirPendientesPath base ++ "/" ++ n)).filterMap
          (fun p => (parsearArchivo fs p).1)) := by
  constructor
  · intro h
    simp [procesarCfdisPendientes, h]
  · intro L h
    simp only [procesarCfdisPendientes, h]
    rw [procesarLoop_eq]
    simp

/-- A pending-directory listing with one extractable file, one non-XML file
and one listed-but-missing file. -/
def fsPend : FileSystem :=
  ⟨fun p => if p = "b/data/facturas_pendientes/a.xml" then some (.ok rootPlainEx) else none,
    some ["a.xml", "nota.txt", "x.xml"]⟩

/-- Witness for `c8_procesar_pendientes` at concrete inputs. -/
theorem c8_procesar_pendientes_witness :
    procesarCfdisPendientes "b" fsEx = [] ∧
    procesarCfdisPendientes "b" fsPend =
      [parsearCFDIv3 rootPlainEx "b/data/facturas_pendientes/a.xml"] := by
  constructor
  · exact (c8_procesar_pendientes "b" fsEx).1 rfl
  · rw [(c8_procesar_pendientes "b" fsPend).2 ["a.xml", "nota.txt", "x.xml"] rfl]
    decide

/-! ## Directory initialisation (C9) and filesystem frame (C10) -/

/-- A nonempty path is one of its own ancestors. -/
theorem self_mem_ancestors (p : List String) (hp : p ≠ []) : p ∈ ancestors p := by
  induction p with
  | nil => exact absurd rfl hp
  | cons a rest ih =>
    cases rest with
    | nil => simp [ancestors]
    | cons b r2 =>
      unfold ancestors
      refine Finset.mem_insert.2 (Or.inr ?_)
      exact Finset.mem_image.2 ⟨b :: r2, ih (by simp), rfl⟩

/-- C9: `init_directorios` creates the pending and processed directories
and every parent of them, changes nothing else, is a no-op (and in
particular cannot fail) when they already exist, and is idempotent. -/
theorem c9_init_directorios (base : List String) (s : Finset (List String)) :
    (dirPendientesComponents base ∈ initDirectorios base s ∧
      dirProcesadasComponents base ∈ initDirectorios base s) ∧
    (∀ q ∈ ancestors (dirPendientesComponents base), q ∈ initDirectorios base s) ∧
    (∀ q ∈ ancestors (dirProcesadasComponents base), q ∈ initDirectorios base s) ∧
    (∀ q ∈ s, q ∈ initDirectorios base s) ∧
    initDirectorios base s =
      s ∪ (ancestors (dirProcesadasComponents base) ∪
        ancestors (dirPendientesComponents base)) ∧
    (ancestors (dirProcesadasComponents base) ∪
        ancestors (dirPendientesComponents base) ⊆ s →
      initDirectorios base s = s) ∧
    initDirectorios base (initDirectorios base s) = initDirectorios base s := by
  have hframe : initDirectorios base s =
      s ∪ (ancestors (dirProcesadasComponents base) ∪
        ancestors (dirPendientesComponents base)) := by
    unfold initDirectorios mkdirParentsExistOk
    rw [Finset.union_assoc]
  refine ⟨⟨?_, ?_⟩, ?_, ?_, ?_, hframe, ?_, ?_⟩
  · rw [hframe]
    exact Finset.mem_union_right _ (Finset.mem_union_right _
      (self_mem_ancestors _ (by simp [dirPendientesComponents])))
  · rw [hframe]
    exact Finset.mem_union_right _ (Finset.mem_union_left _
      (self_mem_ancestors _ (by simp [dirProcesadasComponents])))
  · intro q hq
    rw [hframe]
    exact Finset.mem_union_right _ (Finset.mem_union_right _ hq)
  · intro q hq
    rw [hframe]
    exact Finset.mem_union_right _ (Finset.mem_union_left _ hq)
  · intro q hq
    rw [hframe]
    exact Finset.mem_union_left _ hq
  · intro hsub
    rw [hframe]
    exact Finset.union_eq_left.2 hsub
  · unfold initDirectorios mkdirParentsExistOk
    ext q
    simp only [Finset.mem_union]
    tauto

/-- Witness for `c9_init_directorios` at concrete inputs. -/
theorem c9_init_directorios_witness :
    dirPendientesComponents ["b"] ∈ initDirectorios ["b"] ∅ ∧
    (["b"] ∈ ancestors (dirPendientesComponents ["b"]) →
      ["b"] ∈ initDirectorios ["b"] ∅) ∧
    initDirectorios ["b"] (initDirectorios ["b"] ∅) = initDirectorios ["b"] ∅ := by
  refine ⟨(c9_init_directorios ["b"] ∅).1.1, fun h => ?_, ?_⟩
  · exact (c9_init_directorios ["b"] ∅).2.1 ["b"] h
  · exact (c9_init_directorios ["b"] ∅).2.2.2.2.2.2

/-- C10: neither single-file extraction nor batch processing issues any
filesystem write; every operation of `init_directorios` is a write, making
it the only mutating operation of the system. -/
theorem c10_solo_init_escribe (fs : FileSystem) (ruta base : String)
    (baseDirs : List String) :
    (∀ op ∈ parsearArchivoOps fs ruta, op.isWrite = false) ∧
    (∀ op ∈ procesarCfdisPendientesOps base fs, op.isWrite = false) ∧
    (∀ op ∈ initDirectoriosOps baseDirs, op.isWrite = true) := by
  have hparse : ∀ (p : String), ∀ op ∈ parsearArchivoOps fs p, op.isWrite = false := by
    intro p op hop
    unfold parsearArchivoOps at hop
    cases h : fs.files p with
    | none =>
      rw [h] at hop
      simp only [List.mem_singleton] at hop
      rw [hop]
      rfl
    | some r =>
      rw [h] at hop
      simp only [List.mem_cons, List.not_mem_nil, or_false] at hop
      rcases hop with h1 | h1 <;> rw [h1] <;> rfl
  refine ⟨hparse ruta, ?_, ?_⟩
  · intro op hop
    unfold procesarCfdisPendientesOps at hop
    cases h : fs.pendientes with
    | none =>
      rw [h] at hop
      simp only [List.mem_singleton] at hop
      rw [hop]
      rfl
    | some listing =>
      rw [h] at hop
      simp only [List.mem_cons] at hop
      rcases hop with h1 | h1 | h1
      · rw [h1]; rfl
      · rw [h1]; rfl
      · obtain ⟨p, -, hp⟩ := List.mem_flatMap.1 h1
        exact hparse p op hp
  · intro op hop
    simp only [initDirectoriosOps, List.mem_cons, List.not_mem_nil, or_false] at hop
    rcases hop with h1 | h1 <;> rw [h1] <;> rfl

/-- Witness for `c10_solo_init_escribe` at concrete inputs. -/
theorem c10_solo_init_escribe_witness :
    (FsOp.stat "ok.xml").isWrite = false ∧
    (FsOp.listDir (dirPendientesPath "b")).isWrite = false ∧
    (FsOp.mkdirOp (dirProcesadasComponents ["b"])).isWrite = true := by
  refine ⟨?_, ?_, ?_⟩
  · exact (c10_solo_init_escribe fsEx "ok.xml" "b" ["b"]).1 (FsOp.stat "ok.xml") (by decide)
  · exact (c10_solo_init_escribe fsPend "ok.xml" "b" ["b"]).2.1
      (FsOp.listDir (dirPendientesPath "b")) (by decide)
  · exact (c10_solo_init_escribe fsEx "ok.xml" "b" ["b"]).2.2
      (FsOp.mkdirOp (dirProcesadasComponents ["b"])) (by decide)

/-! ## Case fallback of the v3.3 field mapping (C2) -/

/-- A v3.3 document whose attributes all use the lowercase-initial
spellings. -/
def v3LowerDoc (f s t st fe m r1 n1 r2 n2 : String) : Element :=
  Element.mk (qual cfdiNs3 "Comprobante")
    [("folio", f), ("serie", s), ("total", t), ("subTotal", st), ("fecha", fe),
      ("moneda", m)]
    (elems [Element.mk (qual cfdiNs3 "Emisor") [("rfc", r1), ("nombre", n1)] .nil,
            Element.mk (qual cfdiNs3 "Receptor") [("rfc", r2), ("nombre", n2)] .nil])

/-- The equivalent v3.3 document using the PascalCase spellings. -/
def v3PascalDoc (f s t st fe m r1 n1 r2 n2 : String) : Element :=
  Element.mk (qual cfdiNs3 "Comprobante")
    [("Folio", f), ("Serie", s), ("Total", t), ("SubTotal", st), ("Fecha", fe),
      ("Moneda", m)]
    (elems [Element.mk (qual cfdiNs3 "Emisor") [("Rfc", r1), ("Nombre", n1)] .nil,
            Element.mk (qual cfdiNs3 "Receptor") [("Rfc", r2), ("Nombre", n2)] .nil])

/-- C2 counterexample: the claim promises identical records "including the
currency field", but the v3.3 mapper reads currency from the PascalCase
`Moneda` attribute only, so a lowercase-only document gets the default
`"MXN"` while its PascalCase equivalent keeps its stated currency. -/
theorem c2_counterexample :
    (parsearCFDIv3 (v3LowerDoc "7" "A" "100" "90" "2024-01-15" "USD" "R1" "N1" "R2" "N2")
      "f.xml").moneda = some "MXN" ∧
    (parsearCFDIv3 (v3PascalDoc "7" "A" "100" "90" "2024-01-15" "USD" "R1" "N1" "R2" "N2")
      "f.xml").moneda = some "USD" := by
  decide

/-- C2 amended: each listed field (folio, serie, total, subTotal, fecha,
and the issuer's and recipient's rfc and nombre) is looked up lowercase
first, then PascalCase, whichever is non-empty, so a lowercase-exclusive
v3.3 document maps to the same record as its PascalCase equivalent on every
field except the currency, which is read from the PascalCase `Moneda` only:
the lowercase document falls back to `"MXN"` while the PascalCase one keeps
its `Moneda` value. -/
theorem c2_fallback_v3 (f s t st fe m r1 n1 r2 n2 p : String)
    (hf : f ≠ "") (hs : s ≠ "") (ht : t ≠ "") (hst : st ≠ "") (hfe : fe ≠ "")
    (hr1 : r1 ≠ "") (hn1 : n1 ≠ "") (hr2 : r2 ≠ "") (hn2 : n2 ≠ "") :
    parsearCFDIv3 (v3LowerDoc f s t st fe m r1 n1 r2 n2) p =
      { parsearCFDIv3 (v3PascalDoc f s t st fe m r1 n1 r2 n2) p with
          moneda := some "MXN" } ∧
    (parsearCFDIv3 (v3PascalDoc f s t st fe m r1 n1 r2 n2) p).moneda = some m := by
  have hOr : ∀ a : String, a ≠ "" → pyOr (some a) none = pyOr none (some a) := by
    intro a ha
    simp [pyOr, ha]
  refine ⟨?_, rfl⟩
  ext1
  · exact hOr f hf
  · exact hOr s hs
  · exact congrArg convertirFecha (hOr fe hfe)
  · exact congrArg convertirAFloat (hOr t ht)
  · exact congrArg convertirAFloat (hOr st hst)
  · rfl
  · exact hOr r1 hr1
  · exact hOr n1 hn1
  · rfl
  · exact hOr r2 hr2
  · exact hOr n2 hn2
  · rfl
  · rfl
  · rfl
  · rfl

/-- Witness for `c2_fallback_v3` at concrete inputs. -/
theorem c2_fallback_v3_witness :
    parsearCFDIv3 (v3LowerDoc "7" "A" "1" "1" "x" "USD" "R1" "N1" "R2" "N2") "f.xml" =
      { parsearCFDIv3 (v3PascalDoc "7" "A" "1" "1" "x" "USD" "R1" "N1" "R2" "N2") "f.xml"
          with moneda := some "MXN" } ∧
    (parsearCFDIv3 (v3PascalDoc "7" "A" "1" "1" "x" "USD" "R1" "N1" "R2" "N2")
      "f.xml").moneda = some "USD" :=
  c2_fallback_v3 "7" "A" "1" "1" "x" "USD" "R1" "N1" "R2" "N2" "f.xml"
    (by decide) (by decide) (by decide) (by decide) (by decide)
    (by decide) (by decide) (by decide) (by decide)

/-! ## Numeric coercion and partial success (C7) -/

/-- Replace (or add) one attribute of an element, leaving its tag and
children untouched. -/
def setAttr (e : Element) (k v : String) : Element :=
  Element.mk e.tag ((k, v) :: e.attrs.filter (fun p => !(p.1 == k))) e.children

/-- Removing the entries with key `k` does not change a lookup of a
different key. -/
theorem find?_filter_ne (l : List (String × String)) (k k2 : String) (hne : k2 ≠ k) :
    (l.filter (fun p => !(p.1 == k))).find? (fun p => p.1 == k2) =
      l.find? (fun p => p.1 == k2) := by
  induction l with
  | nil => rfl
  | cons a rest ih =>
    by_cases hak : a.1 = k
    · rw [List.filter_cons_of_neg (by simp [hak]), ih,
        List.find?_cons_of_neg _ (by simp [hak, hne.symm])]
    · rw [List.filter_cons_of_pos (by simp [hak])]
      by_cases hak2 : a.1 = k2
      · rw [List.find?_cons_of_pos _ (by simp [hak2]),
          List.find?_cons_of_pos _ (by simp [hak2])]
      · rw [List.find?_cons_of_neg _ (by simp [hak2]),
          List.find?_cons_of_neg _ (by simp [hak2]), ih]

/-- After `setAttr e k v`, the key `k` reads `v`. -/
theorem get_setAttr_same (e : Element) (k v : String) :
    (setAttr e k v).get k = some v := by
  simp [setAttr, Element.get, Element.attrs, List.find?_cons_of_pos]

/-- After `setAttr e k v`, any other key reads as before. -/
theorem get_setAttr_other (e : Element) (k v k2 : String) (hne : k2 ≠ k) :
    (setAttr e k v).get k2 = e.get k2 := by
  simp only [setAttr, Element.get, Element.attrs]
  rw [List.find?_cons_of_neg _ (by simp [hne.symm]), find?_filter_ne _ _ _ hne]

/-- C7: numeric coercion sends `None` and the empty string to null, any
other string to the result of float parsing (null on failure, no error
propagated); consequently corrupting the `Total` attribute of a v4
document to a non-numeric text nulls only the `total` field, leaving every
other field of the extracted record unchanged. -/
theorem c7_total_parcial (root : Element) (p bad : String)
    (hbad : pyFloat bad = none) (hne : bad ≠ "") :
    convertirAFloat none = none ∧
    convertirAFloat (some "") = none ∧
    (∀ s : String, s ≠ "" → convertirAFloat (some s) = pyFloat s) ∧
    parsearCFDIv4 (setAttr root "Total" bad) p =
      { parsearCFDIv4 root p with total := none } := by
  refine ⟨rfl, rfl, fun s hs => by simp [convertirAFloat, hs], ?_⟩
  ext1
  · exact get_setAttr_other root "Total" bad "Folio" (by decide)
  · exact get_setAttr_other root "Total" bad "Serie" (by decide)
  · exact congrArg convertirFecha (get_setAttr_other root "Total" bad "Fecha" (by decide))
  · rw [show (parsearCFDIv4 (setAttr root "Total" bad) p).total =
        convertirAFloat ((setAttr root "Total" bad).get "Total") from rfl,
      get_setAttr_same]
    simp [convertirAFloat, hne, hbad]
  · exact congrArg convertirAFloat (get_setAttr_other root "Total" bad "SubTotal" (by decide))
  · rw [show (parsearCFDIv4 (setAttr root "Total" bad) p).moneda =
        some ((setAttr root "Total" bad).getD "Moneda" "MXN") from rfl,
      show ({ parsearCFDIv4 root p with total := none } : CFDIData).moneda =
        some (root.getD "Moneda" "MXN") from rfl]
    unfold Element.getD
    rw [get_setAttr_other root "Total" bad "Moneda" (by decide)]
  · rfl
  · rfl
  · rfl
  · rfl
  · rfl
  · rfl
  · rfl
  · rfl
  · rfl

/-! ## Date coercion (C3) -/

/-- Modelled from the spec's wording: the same four formats, attempted in
the order the spec lists them (ISO with seconds, ISO with fractional
seconds, space-separated, date-only), returning the first success.  The
source's `_convertir_fecha` lists the space-separated format before the
fractional one; `c3_conversion_fecha` shows the two orders agree on every
input. -/
def convertirFechaSpecOrder (fechaStr : Option String) : Option DateTime :=
  match fechaStr with
  | none => none
  | some s =>
    if s = "" then none
    else
      match strptimeF 'T' false s.data with
      | some d => some d
      | none =>
        match strptimeF 'T' true s.data with
        | some d => some d
        | none =>
          match strptimeF ' ' false s.data with
          | some d => some d
          | none => strptimeDateOnly s.data

/-- The space-separated and fractional formats accept disjoint inputs:
after the date fields, one demands a space and the other the letter
`'T'`. -/
theorem space_frac_exclusive (cs : List Char) (d1 d2 : DateTime)
    (h1 : strptimeF ' ' false cs = some d1)
    (h2 : strptimeF 'T' true cs = some d2) : False := by
  cases hdp : parseDatePart cs with
  | none =>
    simp only [strptimeF, hdp] at h1
    exact Option.noConfusion h1
  | some ymdr =>
    obtain ⟨y, m, d, r⟩ := ymdr
    simp only [strptimeF, hdp] at h1 h2
    cases r with
    | nil =>
      simp only [afterDate] at h1
      exact Option.noConfusion h1
    | cons c r2 =>
      simp only [afterDate] at h1 h2
      by_cases hc : c = ' '
      · rw [if_neg (show ¬c = 'T' by rw [hc]; decide)] at h2
        exact Option.noConfusion h2
      · rw [if_neg hc] at h1
        exact Option.noConfusion h1

/-- C3: date coercion sends a missing or empty string to null; otherwise
it returns the first successful parse among the four accepted formats in
the spec's order (ISO with seconds, ISO with fractional seconds,
space-separated, date-only); when none succeeds it emits one diagnostic
message and returns null, and on success no diagnostic is emitted. -/
theorem c3_conversion_fecha (fechaStr : Option String) :
    convertirFecha none = none ∧
    convertirFecha (some "") = none ∧
    convertirFecha fechaStr = convertirFechaSpecOrder fechaStr ∧
    (∀ s : String, s ≠ "" →
      strptimeF 'T' false s.data = none → strptimeF 'T' true s.data = none →
      strptimeF ' ' false s.data = none → strptimeDateOnly s.data = none →
      convertirFecha (some s) = none ∧
      convertirFechaLog (some s) = ["No se pudo convertir la fecha: " ++ s]) ∧
    (∀ s : String, (convertirFecha (some s)).isSome = true →
      convertirFechaLog (some s) = []) := by
  refine ⟨rfl, rfl, ?_, ?_, ?_⟩
  · cases fechaStr with
    | none => rfl
    | some s =>
      simp only [convertirFecha, convertirFechaSpecOrder]
      by_cases hs : s = ""
      · rw [if_pos hs, if_pos hs]
      · rw [if_neg hs, if_neg hs]
        cases h1 : strptimeF 'T' false s.data with
        | some d => rfl
        | none =>
          cases h2 : strptimeF ' ' false s.data with
          | some d2 =>
            cases h3 : strptimeF 'T' true s.data with
            | some d3 => exact (space_frac_exclusive s.data d2 d3 h2 h3).elim
            | none => rfl
          | none =>
            cases h3 : strptimeF 'T' true s.data with
            | some d3 => rfl
            | none => rfl
  · intro s hs h1 h2 h3 h4
    have hval : convertirFecha (some s) = none := by
      simp only [convertirFecha]
      rw [if_neg hs, h1, h3, h2, h4]
    refine ⟨hval, ?_⟩
    simp only [convertirFechaLog]
    rw [if_neg hs, hval]
    rfl
  · intro s hsome
    simp only [convertirFechaLog]
    by_cases hs : s = ""
    · rw [if_pos hs]
    · rw [if_neg hs]
      cases hval : convertirFecha (some s) with
      | some d => rfl
      | none => rw [hval] at hsome; exact Bool.noConfusion hsome

/-- Witness for `c3_conversion_fecha` at concrete inputs. -/
theorem c3_conversion_fecha_witness :
    (convertirFecha (some "15/01/2024") = none ∧
      convertirFechaLog (some "15/01/2024") =
        ["No se pudo convertir la fecha: 15/01/2024"]) ∧
    convertirFechaLog (some "2024-01-15T10:30:00") = [] := by
  constructor
  · exact (c3_conversion_fecha none).2.2.2.1 "15/01/2024" (by decide) (by decide)
      (by decide) (by decide) (by decide)
  · exact (c3_conversion_fecha none).2.2.2.2 "2024-01-15T10:30:00" (by decide)

/-- Witness for `c7_total_parcial` at concrete inputs. -/
theorem c7_total_parcial_witness :
    parsearCFDIv4 (setAttr rootV4ex "Total" "abc") "f.xml" =
      { parsearCFDIv4 rootV4ex "f.xml" with total := none } :=
  (c7_total_parcial rootV4ex "f.xml" "abc" (by decide) (by decide)).2.2.2

/-! ## Summary formatter (C1) -/

/-- The character of a decimal digit is a digit character. -/
theorem char_ofNat_digit (m : Nat) (hm : m < 10) : (Char.ofNat (48 + m)).isDigit = true := by
  interval_cases m <;> decide

/-- Every character produced by `natDigitsAux` over a digit accumulator is
a digit. -/
theorem natDigitsAux_digits (n : Nat) (acc : List Char)
    (hacc : ∀ c ∈ acc, c.isDigit = true) :
    ∀ c ∈ natDigitsAux n acc, c.isDigit = true := by
  induction n using Nat.strong_induction_on generalizing acc with
  | _ n ih =>
    rw [natDigitsAux]
    split
    · intro c hc
      rcases List.mem_cons.1 hc with h | h
      · rw [h]
        exact char_ofNat_digit _ (Nat.mod_lt _ (by omega))
      · exact hacc c h
    · rename_i hdiv
      intro c hc
      refine ih (n / 10) (Nat.div_lt_self (by omega) (by omega))
        (Char.ofNat (48 + n % 10) :: acc) ?_ c hc
      intro c2 hc2
      rcases List.mem_cons.1 hc2 with h | h
      · rw [h]
        exact char_ofNat_digit _ (Nat.mod_lt _ (by omega))
      · exact hacc c2 h

/-- `natDigitsAux` always produces at least one character. -/
theorem natDigitsAux_ne_nil (n : Nat) (acc : List Char) : natDigitsAux n acc ≠ [] := by
  induction n using Nat.strong_induction_on generalizing acc with
  | _ n ih =>
    rw [natDigitsAux]
    split
    · simp
    · rename_i hdiv
      exact ih (n / 10) (Nat.div_lt_self (by omega) (by omega)) _

/-- Characters of `natStr` are digits. -/
theorem natStr_digits (n : Nat) : ∀ c ∈ natStr n, c.isDigit = true :=
  natDigitsAux_digits n [] (by simp)

/-- A character of a comma-grouped list is a character of the input or a
comma. -/
theorem commaRev_mem (l : List Char) (c : Char) (hc : c ∈ commaRev l) : c ∈ l ∨ c = ',' := by
  induction l using commaRev.induct with
  | case1 => simp [commaRev] at hc
  | case2 a => simp [commaRev] at hc; simp [hc]
  | case3 a b => simp [commaRev] at hc; rcases hc with h | h <;> simp [h]
  | case4 a b c2 => simp [commaRev] at hc; rcases hc with h | h | h <;> simp [h]
  | case5 a b c2 d rest ih =>
    simp only [commaRev, List.mem_cons] at hc
    rcases hc with h | h | h | h | h
    · exact Or.inl (by simp [h])
    · exact Or.inl (by simp [h])
    · exact Or.inl (by simp [h])
    · exact Or.inr h
    · rcases ih h with h2 | h2
      · exact Or.inl (by simp [List.mem_cons.1 h2, List.mem_cons])
      · exact Or.inr h2

/-- Comma grouping of a nonempty list is nonempty. -/
theorem commaRev_ne_nil (l : List Char) (hl : l ≠ []) : commaRev l ≠ [] := by
  induction l using commaRev.induct with
  | case1 => exact absurd rfl hl
  | case2 a => simp [commaRev]
  | case3 a b => simp [commaRev]
  | case4 a b c => simp [commaRev]
  | case5 a b c d rest ih => simp [commaRev]

/-- The thousands-grouped rendering of a natural number is a nonempty
string of digits and commas. -/
theorem groupThousands_spec (n : Nat) :
    (groupThousands n).data ≠ [] ∧
      ∀ c ∈ (groupThousands n).data, c.isDigit = true ∨ c = ',' := by
  constructor
  · show (commaRev (natStr n).reverse).reverse ≠ []
    intro h
    exact commaRev_ne_nil (natStr n).reverse (by simp [natDigitsAux_ne_nil n [], natStr])
      (by simpa using congrArg List.reverse h)
  · intro c hc
    have hc2 : c ∈ commaRev (natStr n).reverse := by
      rw [show (groupThousands n).data = (commaRev (natStr n).reverse).reverse from rfl] at hc
      exact List.mem_reverse.1 hc
    rcases commaRev_mem _ c hc2 with h | h
    · exact Or.inl (natStr_digits n c (by simpa using h))
    · exact Or.inr h

/-- `natStr` of a value below ten is its single digit character. -/
theorem natStr_lt10 (n : Nat) (h : n < 10) : natStr n = [Char.ofNat (48 + n % 10)] := by
  unfold natStr
  rw [natDigitsAux]
  rw [dif_pos (by omega)]

/-- `natStr` of a two-digit value. -/
theorem natStr_len2 (n : Nat) (h1 : 10 ≤ n) (h2 : n < 100) :
    natStr n = [Char.ofNat (48 + (n / 10) % 10), Char.ofNat (48 + n % 10)] := by
  unfold natStr
  rw [natDigitsAux]
  rw [dif_neg (by omega)]
  rw [natDigitsAux]
  rw [dif_pos (by omega)]

/-- The two-decimals rendering of a value below 100 is exactly two digit
characters. -/
theorem pad2_spec (n : Nat) (h : n < 100) :
    (pad2 n).data.length = 2 ∧ ∀ c ∈ (pad2 n).data, c.isDigit = true := by
  unfold pad2
  by_cases h10 : n < 10
  · rw [if_pos h10]
    rw [natStr_lt10 n h10]
    exact ⟨rfl, by
      intro c hc
      rcases List.mem_cons.1 hc with h2 | h2
      · rw [h2]; decide
      · simp only [List.mem_singleton] at h2
        rw [h2]
        exact char_ofNat_digit _ (Nat.mod_lt _ (by omega))⟩
  · rw [if_neg h10]
    rw [natStr_len2 n (by omega) h]
    refine ⟨rfl, ?_⟩
    intro c hc
    rcases List.mem_cons.1 hc with h2 | h2
    · rw [h2]; exact char_ofNat_digit _ (Nat.mod_lt _ (by omega))
    · simp only [List.mem_singleton] at h2
      rw [h2]
      exact char_ofNat_digit _ (Nat.mod_lt _ (by omega))

/-- Concatenation of strings concatenates their character lists. -/
theorem str_data_append (a b : String) : (a ++ b).data = a.data ++ b.data := by
  cases a
  cases b
  rfl

/-- Every amount formatted by `formatComma2` has the claimed display
shape. -/
theorem formatComma2_shape (q : ℚ) : currencyShape (formatComma2 q) := by
  unfold formatComma2 currencyShape
  refine ⟨(if roundHalfEven (q * 100) < 0 then "-" else "").data,
    (groupThousands ((roundHalfEven (q * 100)).natAbs / 100)).data,
    (pad2 ((roundHalfEven (q * 100)).natAbs % 100)).data, ?_, ?_, ?_, ?_, ?_, ?_⟩
  · rw [str_data_append, str_data_append, str_data_append]
  · by_cases hneg : roundHalfEven (q * 100) < 0
    · rw [if_pos hneg]; exact Or.inr rfl
    · rw [if_neg hneg]; exact Or.inl rfl
  · exact (groupThousands_spec _).1
  · exact (groupThousands_spec _).2
  · exact (pad2_spec _ (Nat.mod_lt _ (by omega))).1
  · exact (pad2_spec _ (Nat.mod_lt _ (by omega))).2

/-- A record whose total is the float `0.0`. -/
def cfdiTotalCero : CFDIData :=
  { folio := some "1", total := some 0, moneda := some "MXN" }

/-- C1 counterexample: the claim promises a formatted string whenever the
record's total is non-null, in particular for `total = 0.0`; but the
formatter tests Python truthiness, and `0.0` is falsy, so the `total`
display entry is null although the record's total is not. -/
theorem c1_counterexample :
    cfdiTotalCero.total = some 0 ∧
    (obtenerResumenCfdi cfdiTotalCero).total = none := by
  decide

/-- C1 amended: the summary's `total` entry is null exactly when the
record's total is null or equal to zero (Python falsiness of `0.0`);
for any other total it is the string `$` ++ the amount formatted with
thousands separators and two decimals ++ a space ++ the currency text, and
the formatted amount has the claimed digits-commas-dot-two-digits shape. -/
theorem c1_resumen_total (r : CFDIData) :
    ((obtenerResumenCfdi r).total = none ↔ (r.total = none ∨ r.total = some 0)) ∧
    (∀ q : ℚ, r.total = some q → q ≠ 0 →
      (obtenerResumenCfdi r).total =
        some ("$" ++ formatComma2 q ++ " " ++ pyStrOpt r.moneda) ∧
      currencyShape (formatComma2 q)) := by
  constructor
  · simp only [obtenerResumenCfdi]
    cases ht : r.total with
    | none => simp
    | some q =>
      by_cases hq : q = 0
      · simp [hq]
      · simp [hq]
  · intro q hq hq0
    refine ⟨?_, formatComma2_shape q⟩
    simp only [obtenerResumenCfdi, hq]
    rw [if_neg hq0]

/-- A record with a nonzero total. -/
def cfdiTotalCinco : CFDIData :=
  { folio := some "1", total := some 5, moneda := some "MXN" }

/-- Witness for `c1_resumen_total` at concrete inputs. -/
theorem c1_resumen_total_witness :
    (obtenerResumenCfdi cfdiTotalCinco).total =
      some ("$" ++ formatComma2 5 ++ " " ++ pyStrOpt cfdiTotalCinco.moneda) ∧
    currencyShape (formatComma2 5) :=
  (c1_resumen_total cfdiTotalCinco).2 5 rfl (by decide)

end Gestor
